import Mathlib

/-!
Verification development for the sciris persistence layer
(`src/sciris/sc_fileio.py` and `src/scirisweb/sc_datastore.py`).

Part 1 embeds the serialization chain of `sc_fileio.py`:
`dumpstr` / `loadstr` / `unpickler` / `RobustUnpickler.find_class` /
`makefailed` / the `Failed` placeholder class.

The external serializers (`pickle`, `dill`) operate on raw byte strings.
We model a byte string by what it encodes: `PStream` is the abstraction of
pickle byte strings, where

  * `lit` / `strS` / `listS` stand for bytes encoding primitives and
    containers (always loadable by both serializers);
  * `glob m c` stands for bytes encoding an instance of class `c` of
    module `m` (the GLOBAL opcode): loadable iff the class can be
    imported, which the model tracks with an environment `Env` of
    importable (module, class) pairs;
  * `dillOnly t` stands for content only the secondary serializer can
    reconstruct (e.g. a function object, in Python dumped by `dill`);
  * `corrupt` stands for bytes that are not a structurally valid pickle
    (for example the empty byte string `b''`), on which every loader
    raises.

Python exceptions are modelled with `Except String`: a `.error` value is a
raised exception that propagates.
-/

/-- Importable (module, class) pairs: the abstraction of what
`__import__(module)` / `from module import name` can resolve at load time. -/
abbrev Env := List (String × String)

mutual

/-- Python in-memory values, as far as the serialization claims need them:
primitives, strings, lists, class instances (identified by the module and
class that reconstruct them), function objects (picklable only by `dill`),
and instances of the `Failed` placeholder class of `sc_fileio.py`.
`Failed` instances carry no per-instance data: in the source,
`failure_info` is a class attribute, modelled below as the `FailState`. -/
inductive PyObj where
  | prim (n : Int)
  | pstr (s : String)
  | plist (xs : PyList)
  | inst (moduleName clsName : String)
  | func (tag : Nat)
  | failedInst
  deriving DecidableEq

/-- Lists of Python values (mutual companion of `PyObj`). -/
inductive PyList where
  | nil
  | cons (hd : PyObj) (tl : PyList)
  deriving DecidableEq

end

mutual

/-- Pickle byte strings, abstracted by what they encode (see the header
comment). -/
inductive PStream where
  | lit (n : Int)
  | strS (s : String)
  | listS (xs : PSList)
  | glob (moduleName clsName : String)
  | dillOnly (tag : Nat)
  | corrupt
  deriving DecidableEq

/-- Lists of pickle streams (mutual companion of `PStream`). -/
inductive PSList where
  | nil
  | cons (hd : PStream) (tl : PSList)
  deriving DecidableEq

end

/-- Whether class `c` of module `m` can be imported in environment `env`:
the success condition of the `__import__`/`getattr` and
`from m import c` attempts in `RobustUnpickler.find_class`. -/
def resolvable (env : Env) (m c : String) : Bool :=
  env.contains (m, c)

/-- One entry of `Failed.failure_info`: the module name, class name and
`repr` of the exception recorded by `makefailed`. -/
structure FailRec where
  moduleName : String
  clsName : String
  errorText : String
  deriving DecidableEq

/-- The `Failed.failure_info` class attribute: an ordered record of load
failures (the odict keys `Failure 1`, `Failure 2`, ... are the positions). -/
abbrev FailState := List FailRec

/-- The `repr(E)` text recorded for a failed import of `m.c`. -/
def errRepr (m c : String) : String :=
  "ImportError: cannot import name " ++ c ++ " from " ++ m

/-- `makefailed` from `sc_fileio.py`: append a failure record (module name,
class name, error text) to `Failed.failure_info`. -/
def makefailed (st : FailState) (moduleName name : String) (error : String) : FailState :=
  st ++ [⟨moduleName, name, error⟩]

/-- What `RobustUnpickler.find_class` returns: either the real class, or
the `Failed` placeholder class. -/
inductive FoundClass where
  | real (moduleName clsName : String)
  | failedCls
  deriving DecidableEq

/-- `RobustUnpickler.find_class` from `sc_fileio.py`: try to import the
class (the two import attempts are collapsed into one resolvability test);
on failure, record the failure via `makefailed` and return the `Failed`
class instead of raising. -/
def RobustUnpickler.find_class (env : Env) (st : FailState) (moduleName name : String) :
    FoundClass × FailState :=
  if resolvable env moduleName name then
    (.real moduleName name, st)
  else
    (.failedCls, makefailed st moduleName name (errRepr moduleName name))

mutual

/-- `pickle.loads` on a stream: primitives and containers load; a class
reference loads iff it is importable (the stock `find_class` raises
otherwise); dill-only content and malformed bytes raise. -/
def pklLoads (env : Env) : PStream → Except String PyObj
  | .lit n => .ok (.prim n)
  | .strS s => .ok (.pstr s)
  | .listS xs =>
    match pklLoadsL env xs with
    | .ok vs => .ok (.plist vs)
    | .error e => .error e
  | .glob m c =>
    if resolvable env m c then .ok (.inst m c)
    else .error (errRepr m c)
  | .dillOnly _ => .error "UnpicklingError: unsupported content"
  | .corrupt => .error "UnpicklingError: could not load"

/-- `pickle.loads` elementwise on an encoded list. -/
def pklLoadsL (env : Env) : PSList → Except String PyList
  | .nil => .ok .nil
  | .cons s ss =>
    match pklLoads env s with
    | .error e => .error e
    | .ok v =>
      match pklLoadsL env ss with
      | .error e => .error e
      | .ok vs => .ok (.cons v vs)

end

mutual

/-- `dill.loads` on a stream: like `pickle.loads`, but dill-only content
(function objects) also loads. -/
def dillLoads (env : Env) : PStream → Except String PyObj
  | .lit n => .ok (.prim n)
  | .strS s => .ok (.pstr s)
  | .listS xs =>
    match dillLoadsL env xs with
    | .ok vs => .ok (.plist vs)
    | .error e => .error e
  | .glob m c =>
    if resolvable env m c then .ok (.inst m c)
    else .error (errRepr m c)
  | .dillOnly t => .ok (.func t)
  | .corrupt => .error "UnpicklingError: could not load"

/-- `dill.loads` elementwise on an encoded list. -/
def dillLoadsL (env : Env) : PSList → Except String PyList
  | .nil => .ok .nil
  | .cons s ss =>
    match dillLoads env s with
    | .error e => .error e
    | .ok v =>
      match dillLoadsL env ss with
      | .error e => .error e
      | .ok vs => .ok (.cons v vs)

end

mutual

/-- `RobustUnpickler(...).load()`: a pickle load whose `find_class` is
`RobustUnpickler.find_class`, so an unresolvable class reference yields an
instance of `Failed` (its construction accepts any arguments) and a
failure record, instead of raising.  Content the pickle machinery itself
cannot process (dill-only content, malformed bytes) still raises. -/
def robustLoad (env : Env) : FailState → PStream → Except String (PyObj × FailState)
  | st, .lit n => .ok (.prim n, st)
  | st, .strS s => .ok (.pstr s, st)
  | st, .listS xs =>
    match robustLoadL env st xs with
    | .ok (vs, st') => .ok (.plist vs, st')
    | .error e => .error e
  | st, .glob m c =>
    match RobustUnpickler.find_class env st m c with
    | (.real m' c', st') => .ok (.inst m' c', st')
    | (.failedCls, st') => .ok (.failedInst, st')
  | _, .dillOnly _ => .error "UnpicklingError: unsupported content"
  | _, .corrupt => .error "UnpicklingError: could not load"

/-- `RobustUnpickler` load elementwise on an encoded list, threading the
failure records left to right. -/
def robustLoadL (env : Env) : FailState → PSList → Except String (PyList × FailState)
  | st, .nil => .ok (.nil, st)
  | st, .cons s ss =>
    match robustLoad env st s with
    | .error e => .error e
    | .ok (v, st') =>
      match robustLoadL env st' ss with
      | .error e => .error e
      | .ok (vs, st'') => .ok (.cons v vs, st'')

end

/-- `unpickler` from `sc_fileio.py` (lines 666-679): `die` defaults to
`False`; try `pkl.loads` first; on exception, raise if `die`, otherwise
try `dill.loads`; on a further exception, run the `RobustUnpickler`.
(The warning print for a top-level `Failed` result does not change the
returned value and is not modelled.) -/
def unpickler (env : Env) (st : FailState) (s : PStream) (die : Option Bool) :
    Except String (PyObj × FailState) :=
  let d := die.getD false
  match pklLoads env s with
  | .ok obj => .ok (obj, st)
  | .error e =>
    if d then .error e
    else
      match dillLoads env s with
      | .ok obj => .ok (obj, st)
      | .error _ => robustLoad env st s

mutual

/-- `pkl.dumps` on a value: primitives, containers and importable-class
instances pickle; function objects raise (`pickle` cannot serialize
them); `Failed` instances are outside the scope the claims need and are
not given an encoding. -/
def pklDumps : PyObj → Except String PStream
  | .prim n => .ok (.lit n)
  | .pstr s => .ok (.strS s)
  | .plist xs =>
    match pklDumpsL xs with
    | .ok ss => .ok (.listS ss)
    | .error e => .error e
  | .inst m c => .ok (.glob m c)
  | .func _ => .error "TypeError: cannot pickle function object"
  | .failedInst => .error "Failed instances are outside the model"

/-- `pkl.dumps` elementwise on a list. -/
def pklDumpsL : PyList → Except String PSList
  | .nil => .ok .nil
  | .cons x xs =>
    match pklDumps x with
    | .error e => .error e
    | .ok s =>
      match pklDumpsL xs with
      | .error e => .error e
      | .ok ss => .ok (.cons s ss)

end

mutual

/-- `dill.dumps` on a value: like `pkl.dumps`, but function objects are
also serialized (to content only the secondary serializer reloads). -/
def dillDumps : PyObj → Except String PStream
  | .prim n => .ok (.lit n)
  | .pstr s => .ok (.strS s)
  | .plist xs =>
    match dillDumpsL xs with
    | .ok ss => .ok (.listS ss)
    | .error e => .error e
  | .inst m c => .ok (.glob m c)
  | .func t => .ok (.dillOnly t)
  | .failedInst => .error "Failed instances are outside the model"

/-- `dill.dumps` elementwise on a list. -/
def dillDumpsL : PyList → Except String PSList
  | .nil => .ok .nil
  | .cons x xs =>
    match dillDumps x with
    | .error e => .error e
    | .ok s =>
      match dillDumpsL xs with
      | .error e => .error e
      | .ok ss => .ok (.cons s ss)

end

/-- A Gzip-compressed byte sequence.  Gzip is a lossless codec, so it is
modelled as a wrapper around the compressed pickle stream. -/
structure GzBytes where
  payload : PStream
  deriving DecidableEq

/-- Writing through `GzipFile(mode='wb')`. -/
def gzCompress (s : PStream) : GzBytes := ⟨s⟩

/-- Reading through `GzipFile(mode='rb')`. -/
def gzDecompress (g : GzBytes) : PStream := g.payload

/-- `dumpstr` from `sc_fileio.py` (lines 100-107): serialize `obj` into a
Gzip-compressed byte sequence, trying `savepickle` first and falling back
to `savedill` when pickling raises; if dill also raises, the exception
propagates. -/
def dumpstr (obj : PyObj) : Except String GzBytes :=
  match pklDumps obj with
  | .ok s => .ok (gzCompress s)
  | .error _ =>
    match dillDumps obj with
    | .ok s => .ok (gzCompress s)
    | .error e => .error e

/-- `loadstr` from `sc_fileio.py` (lines 70-75): Gzip-decompress the byte
sequence and hand the pickle string to `unpickler`. -/
def loadstr (env : Env) (st : FailState) (g : GzBytes) (die : Option Bool) :
    Except String (PyObj × FailState) :=
  unpickler env st (gzDecompress g) die

mutual

/-- The values the claims call serializable in environment `env`:
primitives, strings, containers of such, instances of importable classes,
and function objects.  (`Failed` placeholders are excluded.) -/
def resolvesIn (env : Env) : PyObj → Bool
  | .prim _ => true
  | .pstr _ => true
  | .plist xs => resolvesInL env xs
  | .inst m c => resolvable env m c
  | .func _ => true
  | .failedInst => false

/-- `resolvesIn` elementwise on a list. -/
def resolvesInL (env : Env) : PyList → Bool
  | .nil => true
  | .cons x xs => resolvesIn env x && resolvesInL env xs

end

/-!
Part 2 embeds `src/scirisweb/sc_datastore.py`: `StoreObjectHandle` and
`DataStore` with both backends.  UUIDs are modelled as naturals; the
Python dict `handle_dict` is an insertion-ordered association list; the
file system directory `.` and the Redis keyspace are each an association
list from structured keys to serialized payloads.  Python exceptions are
again `Except String`; printed messages are returned where a claim
mentions them.
-/
/-- The `uid` argument accepted by the DataStore methods: Python `None`,
a value convertible to a UUID (a UUID object or hex string — UUIDs are
modelled as naturals), or a value whose conversion to a UUID fails. -/
inductive UidArg where
  | noneA
  | valid (u : Nat)
  | invalid
  deriving DecidableEq

/-- Modelled from the spec: `sc.uuid` of `sciris.sc_utils` is not among
the sources under verification.  Per its uses in `sc_datastore.py`
(`uid=None` generates and uses a new UUID, per the comments in `add` and
`StoreObjectHandle.__init__`; a UUID or hex string converts to itself;
and every caller guards `if valid_uid is not None`, so a failed
conversion yields `None`): `None` ↦ a fresh UUID (the `fresh` argument
stands for the uuid4 generator output), a convertible value ↦ its UUID,
an unconvertible value ↦ `None`. -/
def scUuid (a : UidArg) (fresh : Nat) : Option Nat :=
  match a with
  | .noneA => some fresh
  | .valid u => some u
  | .invalid => none

/-- First-match lookup in an association list (Python `dict.get(k, None)`
or `redis.get`/file read; keys of a real dict are unique, so the first
match is the match). -/
def kvGet {κ ν : Type} [DecidableEq κ] : List (κ × ν) → κ → Option ν
  | [], _ => none
  | (k', v) :: rest, k => if k' = k then some v else kvGet rest k

/-- `d[k] = v` on an association list: replace the first binding of `k`
in place, or append a new binding (Python dicts keep insertion order and
never duplicate a key; `redis.set` and a file write behave alike). -/
def kvSet {κ ν : Type} [DecidableEq κ] : List (κ × ν) → κ → ν → List (κ × ν)
  | [], k, v => [(k, v)]
  | (k', v') :: rest, k, v =>
    if k' = k then (k, v) :: rest else (k', v') :: kvSet rest k v

/-- Key removal on an association list: remove the first binding of `k`,
a no-op when `k` is absent (`redis.delete`; `os.remove` behind an
existence check; `del d[k]` on a dict, whose keys are unique). -/
def kvErase {κ ν : Type} [DecidableEq κ] : List (κ × ν) → κ → List (κ × ν)
  | [], _ => []
  | (k', v) :: rest, k => if k' = k then rest else (k', v) :: kvErase rest k

/-- `StoreObjectHandle` from `sc_datastore.py`.  The Python attributes
`type_prefix`, `file_suffix` and `instance_label` are the fields
`typePrefix`, `fileSuffix` and `instanceLabel`. -/
structure StoreObjectHandle where
  uid : Nat
  typePrefix : String
  fileSuffix : String
  instanceLabel : String
  deriving DecidableEq

/-- `StoreObjectHandle.__init__`: `self.uid = sc.uuid(uid)` — the UID
passed in, or a freshly generated one when `None` was passed in. -/
def StoreObjectHandle.init (uid : Option Nat) (fresh : Nat)
    (typeLabel fileSfx instLabel : String) : StoreObjectHandle :=
  { uid := uid.getD fresh, typePrefix := typeLabel, fileSuffix := fileSfx,
    instanceLabel := instLabel }

/-- The persistence mode of a DataStore. -/
inductive DbMode where
  | redis
  | file
  deriving DecidableEq

/-- A backend location for a stored payload: the Redis key
`'%s-%s' % (type_prefix, uid.hex)`, or the file name
`'%s-%s%s' % (type_prefix, uid.hex, file_suffix)` in the directory `.`.
Locations are kept structured rather than concatenated into strings,
preserving their distinctness; the suffix component is empty for Redis
keys, which do not include the file suffix. -/
structure BKey where
  typePrefix : String
  uidHex : Nat
  suffix : String
  deriving DecidableEq

/-- The storage backend reachable from a DataStore: the payload store
(Redis keys, or files in the working directory), the persisted handle
index (Redis key `scirisdatastore-handle_dict`, or the index file
`.\sciris.ds` — either way distinct from every payload location), and
the persisted mode (`scirisdatastore-db_mode`, written together with the
index).  The index and mode are serialized with the same pickle
machinery as payloads; handles are plain records of strings and UUIDs,
on which that serialization is lossless, so the two slots hold their
contents directly. -/
structure Backend where
  objs : List (BKey × GzBytes)
  indexSlot : Option (List (Option Nat × StoreObjectHandle))
  modeSlot : Option DbMode
  deriving DecidableEq

/-- `DataStore` from `sc_datastore.py`: the in-memory handle index
`handle_dict` (keys are `Option Nat` because `add` uses the converted
uid — which can be Python `None` — as the dict key), the mode, and the
backend state it acts on. -/
structure DataStore where
  handle_dict : List (Option Nat × StoreObjectHandle)
  db_mode : DbMode
  backend : Backend
  deriving DecidableEq

/-- The Redis key of a handle's payload. -/
def StoreObjectHandle.redisKey (h : StoreObjectHandle) : BKey :=
  ⟨h.typePrefix, h.uid, ""⟩

/-- The file name (in the directory `.`) of a handle's payload. -/
def StoreObjectHandle.fileKey (h : StoreObjectHandle) : BKey :=
  ⟨h.typePrefix, h.uid, h.fileSuffix⟩

/-- `StoreObjectHandle.redis_store`: `redis_db.set(key_name,
sc.dumpstr(obj))`; a serializer exception propagates. -/
def StoreObjectHandle.redis_store (h : StoreObjectHandle) (obj : PyObj)
    (kv : List (BKey × GzBytes)) : Except String (List (BKey × GzBytes)) :=
  match dumpstr obj with
  | .ok b => .ok (kvSet kv h.redisKey b)
  | .error e => .error e

/-- `StoreObjectHandle.redis_retrieve`: `sc.loadstr(redis_db.get(key_name))`;
`get` of an absent key returns `None`, on which `loadstr` raises. -/
def StoreObjectHandle.redis_retrieve (env : Env) (st : FailState)
    (h : StoreObjectHandle) (kv : List (BKey × GzBytes)) :
    Except String (PyObj × FailState) :=
  match kvGet kv h.redisKey with
  | some b => loadstr env st b none
  | none => .error "TypeError: loadstr got None"

/-- `StoreObjectHandle.redis_delete`: delete the payload key. -/
def StoreObjectHandle.redis_delete (h : StoreObjectHandle)
    (kv : List (BKey × GzBytes)) : List (BKey × GzBytes) :=
  kvErase kv h.redisKey

/-- `StoreObjectHandle.file_store`: `sc.saveobj` to the handle's file
name (same serializer chain as `dumpstr`, written through Gzip). -/
def StoreObjectHandle.file_store (h : StoreObjectHandle) (obj : PyObj)
    (kv : List (BKey × GzBytes)) : Except String (List (BKey × GzBytes)) :=
  match dumpstr obj with
  | .ok b => .ok (kvSet kv h.fileKey b)
  | .error e => .error e

/-- `StoreObjectHandle.file_retrieve`: `sc.loadobj` from the handle's
file name; a missing file raises. -/
def StoreObjectHandle.file_retrieve (env : Env) (st : FailState)
    (h : StoreObjectHandle) (kv : List (BKey × GzBytes)) :
    Except String (PyObj × FailState) :=
  match kvGet kv h.fileKey with
  | some b => loadstr env st b none
  | none => .error "FileNotFoundError"

/-- `StoreObjectHandle.file_delete`: remove the file if it exists. -/
def StoreObjectHandle.file_delete (h : StoreObjectHandle)
    (kv : List (BKey × GzBytes)) : List (BKey × GzBytes) :=
  kvErase kv h.fileKey

/-- The message `DataStore.load` prints when nothing was ever saved. -/
def loadErrMsg : String := "Error: DataStore object has not been saved yet."

/-- `DataStore.save`: persist the whole in-memory handle index and the
mode to the backend — two Redis `set` calls, or one pickle file. -/
def DataStore.save (ds : DataStore) : DataStore :=
  match ds.db_mode with
  | .redis =>
    { ds with
      backend := { ds.backend with
                    indexSlot := some ds.handle_dict
                    modeSlot := some ds.db_mode } }
  | .file =>
    { ds with
      backend := { ds.backend with
                    indexSlot := some ds.handle_dict
                    modeSlot := some ds.db_mode } }

/-- `DataStore.load`, returning the new state and the printed messages:
when the index was never saved (absent Redis key, resp. missing index
file), print `loadErrMsg` and return `None` with the state unchanged;
otherwise replace the in-memory index and mode with the persisted ones
(a present index with an absent mode makes the Redis branch raise inside
`loadstr(None)`, resp. the file branch inside a truncated read). -/
def DataStore.load (ds : DataStore) : Except String (DataStore × List String) :=
  match ds.db_mode with
  | .redis =>
    match ds.backend.indexSlot with
    | none => .ok (ds, [loadErrMsg])
    | some hd =>
      match ds.backend.modeSlot with
      | some m => .ok ({ ds with handle_dict := hd, db_mode := m }, [])
      | none => .error "TypeError: loadstr got None"
  | .file =>
    match ds.backend.indexSlot with
    | none => .ok (ds, [loadErrMsg])
    | some hd =>
      match ds.backend.modeSlot with
      | some m => .ok ({ ds with handle_dict := hd, db_mode := m }, [])
      | none => .error "EOFError: truncated index file"

/-- `DataStore.get_handle_by_uid`: convert the argument to a valid UUID
if possible, then `handle_dict.get(valid_uid, None)`. -/
def DataStore.get_handle_by_uid (ds : DataStore) (uid : UidArg) (fresh : Nat) :
    Option StoreObjectHandle :=
  match scUuid uid fresh with
  | some valid_uid => kvGet ds.handle_dict (some valid_uid)
  | none => none

/-- The warning `DataStore.get_uid` prints when several handles match. -/
def getUidWarning : String := "Warning: get_uid() only returning the first match."

/-- The matching loop of `DataStore.get_uid`: collect, in insertion
order, the uid of every handle whose type prefix and instance label both
match. -/
def uidMatches : List (Option Nat × StoreObjectHandle) → String → String → List Nat
  | [], _, _ => []
  | (_, h) :: rest, tp, il =>
    if h.typePrefix = tp ∧ h.instanceLabel = il then h.uid :: uidMatches rest tp il
    else uidMatches rest tp il

/-- `DataStore.get_uid`, returning also the printed warnings: `None` on
no match; the sole match silently; the first match with a warning when
there are several. -/
def DataStore.get_uid (ds : DataStore) (tp il : String) : Option Nat × List String :=
  match uidMatches ds.handle_dict tp il with
  | [] => (none, [])
  | [u] => (some u, [])
  | u :: _ :: _ => (some u, [getUidWarning])

/-- `DataStore.add` (defaults: `uid=None`, `type_label='obj'`,
`file_suffix='.obj'`, `instance_label=''`, `save_handle_changes=True`):
convert the uid, build a handle (whose `__init__` converts again — so an
unconvertible argument yields a dict key of `None` but a fresh handle
uid), insert it into `handle_dict` under the converted uid, store the
payload through the handle, save if requested, and return the converted
uid.  `fresh` and `fresh2` stand for the UUID-generator outputs the two
`sc.uuid` calls may consume. -/
def DataStore.add (ds : DataStore) (obj : PyObj) (uid : UidArg)
    (typeLabel fileSfx instLabel : String) (save_handle_changes : Bool)
    (fresh fresh2 : Nat) : Except String (DataStore × Option Nat) :=
  let valid_uid := scUuid uid fresh
  let new_handle := StoreObjectHandle.init valid_uid fresh2 typeLabel fileSfx instLabel
  let hd := kvSet ds.handle_dict valid_uid new_handle
  let stored :=
    match ds.db_mode with
    | .redis => new_handle.redis_store obj ds.backend.objs
    | .file => new_handle.file_store obj ds.backend.objs
  match stored with
  | .error e => .error e
  | .ok objs1 =>
    let ds1 : DataStore := { ds with
      handle_dict := hd
      backend := { ds.backend with objs := objs1 } }
    .ok (if save_handle_changes then ds1.save else ds1, valid_uid)

/-- `DataStore.retrieve`: `None` when the uid does not convert or no
handle matches; otherwise the payload retrieved through the handle (a
deserialization of the stored bytes). -/
def DataStore.retrieve (env : Env) (st : FailState) (ds : DataStore)
    (uid : UidArg) (fresh : Nat) : Except String (Option (PyObj × FailState)) :=
  match scUuid uid fresh with
  | none => .ok none
  | some u =>
    match ds.get_handle_by_uid (.valid u) 0 with
    | none => .ok none
    | some h =>
      match ds.db_mode with
      | .redis => (h.redis_retrieve env st ds.backend.objs).map some
      | .file => (h.file_retrieve env st ds.backend.objs).map some

/-- `DataStore.update`: overwrite the stored payload through the
matching handle; silently return when the uid does not convert or no
handle matches.  `update` does not call `save`. -/
def DataStore.update (ds : DataStore) (uid : UidArg) (obj : PyObj)
    (fresh : Nat) : Except String DataStore :=
  match scUuid uid fresh with
  | none => .ok ds
  | some u =>
    match ds.get_handle_by_uid (.valid u) 0 with
    | none => .ok ds
    | some h =>
      let stored :=
        match ds.db_mode with
        | .redis => h.redis_store obj ds.backend.objs
        | .file => h.file_store obj ds.backend.objs
      match stored with
      | .error e => .error e
      | .ok objs1 => .ok { ds with backend := { ds.backend with objs := objs1 } }

/-- `DataStore.delete` (default `save_handle_changes=True`): delete the
payload through the matching handle, drop the handle from the index and
save; silently return when the uid does not convert or no handle
matches. -/
def DataStore.delete (ds : DataStore) (uid : UidArg)
    (save_handle_changes : Bool) (fresh : Nat) : DataStore :=
  match scUuid uid fresh with
  | none => ds
  | some u =>
    match ds.get_handle_by_uid (.valid u) 0 with
    | none => ds
    | some h =>
      let objs1 :=
        match ds.db_mode with
        | .redis => h.redis_delete ds.backend.objs
        | .file => h.file_delete ds.backend.objs
      let ds1 : DataStore := { ds with
        handle_dict := kvErase ds.handle_dict (some u)
        backend := { ds.backend with objs := objs1 } }
      if save_handle_changes then ds1.save else ds1

/-- The uid argument `delete_all` passes for a dict key (a UUID object,
or Python `None` for a `None` key). -/
def keyToArg : Option Nat → UidArg
  | some u => .valid u
  | none => .noneA

/-- `DataStore.delete_all`: snapshot the keys, delete each one without
saving, then save once at the end.  (The `fresh` input of an inner
delete is only consumed for a `None` key; `0` stands for the generator
output.) -/
def DataStore.delete_all (ds : DataStore) : DataStore :=
  let all_keys := ds.handle_dict.map Prod.fst
  (all_keys.foldl (fun d k => d.delete (keyToArg k) false 0) ds).save

/-- The backend location a DataStore in mode `m` uses for handle `h`. -/
def modeKey (m : DbMode) (h : StoreObjectHandle) : BKey :=
  match m with
  | .redis => h.redisKey
  | .file => h.fileKey

/-- The intermediate state `add` builds before its optional save: handle
inserted under the converted uid, payload stored under the handle's
backend location. -/
def addMid (ds : DataStore) (uid : UidArg) (tl fs il : String) (fr fr2 : Nat)
    (g : GzBytes) : DataStore :=
  { ds with
    handle_dict := kvSet ds.handle_dict (scUuid uid fr)
      (StoreObjectHandle.init (scUuid uid fr) fr2 tl fs il)
    backend := { ds.backend with
      objs := kvSet ds.backend.objs
        (modeKey ds.db_mode (StoreObjectHandle.init (scUuid uid fr) fr2 tl fs il)) g } }

/-- The index well-formedness the implicit claim C10 describes: every
entry of `handle_dict` maps a UID key to a handle whose `uid` equals that
key, and keys are unique. -/
abbrev IndexInv (l : List (Option Nat × StoreObjectHandle)) : Prop :=
  (∀ e ∈ l, e.1 = some e.2.uid) ∧ (l.map Prod.fst).Nodup

mutual

/-- Pickle round-trip: a value that pickles and whose classes are all
importable is reloaded unchanged by `pickle.loads`. -/
theorem pkl_rt (env : Env) : ∀ (x : PyObj) (s : PStream), resolvesIn env x = true →
    pklDumps x = .ok s → pklLoads env s = .ok x
  | .prim n, s, _, hs => by
    simp only [pklDumps, Except.ok.injEq] at hs
    subst hs
    simp [pklLoads]
  | .pstr t, s, _, hs => by
    simp only [pklDumps, Except.ok.injEq] at hs
    subst hs
    simp [pklLoads]
  | .plist xs, s, hr, hs => by
    simp only [resolvesIn] at hr
    simp only [pklDumps] at hs
    cases hd : pklDumpsL xs with
    | error e => rw [hd] at hs; exact absurd hs (by simp)
    | ok ss =>
      rw [hd] at hs
      simp only [Except.ok.injEq] at hs
      subst hs
      have ih := pkl_rtL env xs ss hr hd
      simp [pklLoads, ih]
  | .inst m c, s, hr, hs => by
    simp only [resolvesIn] at hr
    simp only [pklDumps, Except.ok.injEq] at hs
    subst hs
    simp [pklLoads, hr]
  | .func t, s, _, hs => by
    simp [pklDumps] at hs
  | .failedInst, s, hr, _ => by
    simp [resolvesIn] at hr

/-- Pickle round-trip, elementwise on lists. -/
theorem pkl_rtL (env : Env) : ∀ (xs : PyList) (ss : PSList), resolvesInL env xs = true →
    pklDumpsL xs = .ok ss → pklLoadsL env ss = .ok xs
  | .nil, ss, _, hs => by
    simp only [pklDumpsL, Except.ok.injEq] at hs
    subst hs
    simp [pklLoadsL]
  | .cons x xs, ss, hr, hs => by
    simp only [resolvesInL, Bool.and_eq_true] at hr
    simp only [pklDumpsL] at hs
    cases h1 : pklDumps x with
    | error e => rw [h1] at hs; exact absurd hs (by simp)
    | ok s =>
      rw [h1] at hs
      cases h2 : pklDumpsL xs with
      | error e => rw [h2] at hs; exact absurd hs (by simp)
      | ok ss' =>
        rw [h2] at hs
        simp only [Except.ok.injEq] at hs
        subst hs
        have e1 := pkl_rt env x s hr.1 h1
        have e2 := pkl_rtL env xs ss' hr.2 h2
        simp [pklLoadsL, e1, e2]

end

mutual

/-- Dill round-trip: a value that dill serializes and whose classes are
all importable is reloaded unchanged by `dill.loads`. -/
theorem dill_rt (env : Env) : ∀ (x : PyObj) (s : PStream), resolvesIn env x = true →
    dillDumps x = .ok s → dillLoads env s = .ok x
  | .prim n, s, _, hs => by
    simp only [dillDumps, Except.ok.injEq] at hs
    subst hs
    simp [dillLoads]
  | .pstr t, s, _, hs => by
    simp only [dillDumps, Except.ok.injEq] at hs
    subst hs
    simp [dillLoads]
  | .plist xs, s, hr, hs => by
    simp only [resolvesIn] at hr
    simp only [dillDumps] at hs
    cases hd : dillDumpsL xs with
    | error e => rw [hd] at hs; exact absurd hs (by simp)
    | ok ss =>
      rw [hd] at hs
      simp only [Except.ok.injEq] at hs
      subst hs
      have ih := dill_rtL env xs ss hr hd
      simp [dillLoads, ih]
  | .inst m c, s, hr, hs => by
    simp only [resolvesIn] at hr
    simp only [dillDumps, Except.ok.injEq] at hs
    subst hs
    simp [dillLoads, hr]
  | .func t, s, _, hs => by
    simp only [dillDumps, Except.ok.injEq] at hs
    subst hs
    simp [dillLoads]
  | .failedInst, s, hr, _ => by
    simp [resolvesIn] at hr

/-- Dill round-trip, elementwise on lists. -/
theorem dill_rtL (env : Env) : ∀ (xs : PyList) (ss : PSList), resolvesInL env xs = true →
    dillDumpsL xs = .ok ss → dillLoadsL env ss = .ok xs
  | .nil, ss, _, hs => by
    simp only [dillDumpsL, Except.ok.injEq] at hs
    subst hs
    simp [dillLoadsL]
  | .cons x xs, ss, hr, hs => by
    simp only [resolvesInL, Bool.and_eq_true] at hr
    simp only [dillDumpsL] at hs
    cases h1 : dillDumps x with
    | error e => rw [h1] at hs; exact absurd hs (by simp)
    | ok s =>
      rw [h1] at hs
      cases h2 : dillDumpsL xs with
      | error e => rw [h2] at hs; exact absurd hs (by simp)
      | ok ss' =>
        rw [h2] at hs
        simp only [Except.ok.injEq] at hs
        subst hs
        have e1 := dill_rt env x s hr.1 h1
        have e2 := dill_rtL env xs ss' hr.2 h2
        simp [dillLoadsL, e1, e2]

end

mutual

/-- Dill serializes every value in the claimed scope (the `Failed`
placeholder is the only excluded constructor). -/
theorem dillDumps_total : ∀ (x : PyObj) (env : Env), resolvesIn env x = true →
    ∃ s, dillDumps x = .ok s
  | .prim n, _, _ => ⟨.lit n, rfl⟩
  | .pstr t, _, _ => ⟨.strS t, rfl⟩
  | .plist xs, env, hr => by
    simp only [resolvesIn] at hr
    obtain ⟨ss, hss⟩ := dillDumps_totalL xs env hr
    exact ⟨.listS ss, by simp [dillDumps, hss]⟩
  | .inst m c, _, _ => ⟨.glob m c, rfl⟩
  | .func t, _, _ => ⟨.dillOnly t, rfl⟩
  | .failedInst, env, hr => by simp [resolvesIn] at hr

/-- Dill serializes every list of values in the claimed scope. -/
theorem dillDumps_totalL : ∀ (xs : PyList) (env : Env), resolvesInL env xs = true →
    ∃ ss, dillDumpsL xs = .ok ss
  | .nil, _, _ => ⟨.nil, rfl⟩
  | .cons x xs, env, hr => by
    simp only [resolvesInL, Bool.and_eq_true] at hr
    obtain ⟨s, hs⟩ := dillDumps_total x env hr.1
    obtain ⟨ss, hss⟩ := dillDumps_totalL xs env hr.2
    exact ⟨.cons s ss, by simp [dillDumpsL, hs, hss]⟩

end

mutual

/-- When pickling a value raises but dill serializes it, the resulting
byte string is one `pickle.loads` raises on (it holds dill-only
content). -/
theorem pkl_fails_on_dill (env : Env) : ∀ (x : PyObj) (e : String) (s : PStream),
    pklDumps x = .error e → dillDumps x = .ok s → (pklLoads env s).isOk = false
  | .prim n, e, s, hp, _ => by simp [pklDumps] at hp
  | .pstr t, e, s, hp, _ => by simp [pklDumps] at hp
  | .plist xs, e, s, hp, hd => by
    simp only [pklDumps] at hp
    cases hpl : pklDumpsL xs with
    | ok ss => rw [hpl] at hp; exact absurd hp (by simp)
    | error e' =>
      rw [hpl] at hp
      simp only [dillDumps] at hd
      cases hdl : dillDumpsL xs with
      | error e2 => rw [hdl] at hd; exact absurd hd (by simp)
      | ok ss =>
        rw [hdl] at hd
        simp only [Except.ok.injEq] at hd
        subst hd
        have ih := pkl_fails_on_dillL env xs e' ss hpl hdl
        cases hload : pklLoadsL env ss with
        | ok vs => rw [hload] at ih; simp [Except.isOk, Except.toBool] at ih
        | error e3 => simp [pklLoads, hload, Except.isOk, Except.toBool]
  | .inst m c, e, s, hp, _ => by simp [pklDumps] at hp
  | .func t, e, s, _, hd => by
    simp only [dillDumps, Except.ok.injEq] at hd
    subst hd
    simp [pklLoads, Except.isOk, Except.toBool]
  | .failedInst, e, s, _, hd => by simp [dillDumps] at hd

/-- List version of `pkl_fails_on_dill`. -/
theorem pkl_fails_on_dillL (env : Env) : ∀ (xs : PyList) (e : String) (ss : PSList),
    pklDumpsL xs = .error e → dillDumpsL xs = .ok ss → (pklLoadsL env ss).isOk = false
  | .nil, e, ss, hp, _ => by simp [pklDumpsL] at hp
  | .cons x xs, e, ss, hp, hd => by
    simp only [pklDumpsL] at hp
    simp only [dillDumpsL] at hd
    cases hd1 : dillDumps x with
    | error e1 => rw [hd1] at hd; exact absurd hd (by simp)
    | ok s1 =>
      rw [hd1] at hd
      cases hd2 : dillDumpsL xs with
      | error e2 => rw [hd2] at hd; exact absurd hd (by simp)
      | ok ss2 =>
        rw [hd2] at hd
        simp only [Except.ok.injEq] at hd
        subst hd
        cases hp1 : pklDumps x with
        | error e1 =>
          have ih := pkl_fails_on_dill env x e1 s1 hp1 hd1
          cases hl1 : pklLoads env s1 with
          | ok v => rw [hl1] at ih; simp [Except.isOk, Except.toBool] at ih
          | error e3 => simp [pklLoadsL, hl1, Except.isOk, Except.toBool]
        | ok s1' =>
          rw [hp1] at hp
          cases hp2 : pklDumpsL xs with
          | ok ss' => rw [hp2] at hp; exact absurd hp (by simp)
          | error e2' =>
            have ih := pkl_fails_on_dillL env xs e2' ss2 hp2 hd2
            cases hl2 : pklLoadsL env ss2 with
            | ok vs => rw [hl2] at ih; simp [Except.isOk, Except.toBool] at ih
            | error e3 =>
              cases hl1 : pklLoads env s1 with
              | ok v => simp [pklLoadsL, hl1, hl2, Except.isOk, Except.toBool]
              | error e4 => simp [pklLoadsL, hl1, Except.isOk, Except.toBool]

end

/-- The recorded error text is never the empty string. -/
theorem errRepr_ne_empty (m c : String) : errRepr m c ≠ "" := by
  intro h
  have h2 := congrArg String.length h
  simp only [errRepr, String.length_append] at h2
  rw [show ("ImportError: cannot import name ").length = 32 from rfl,
    show (" from ").length = 6 from rfl,
    show ("" : String).length = 0 from rfl] at h2
  omega

/-- Serialize-then-deserialize round-trip for values in the claimed
scope: `dumpstr` succeeds and `loadstr` returns the value unchanged with
no new failure records. -/
theorem loadstr_dumpstr (env : Env) (st : FailState) (x : PyObj)
    (h : resolvesIn env x = true) :
    ∃ g, dumpstr x = .ok g ∧ loadstr env st g none = .ok (x, st) := by
  cases hp : pklDumps x with
  | ok s =>
    refine ⟨gzCompress s, by simp [dumpstr, hp], ?_⟩
    have hl := pkl_rt env x s h hp
    simp [loadstr, gzDecompress, gzCompress, unpickler, hl]
  | error e =>
    obtain ⟨s, hd⟩ := dillDumps_total x env h
    refine ⟨gzCompress s, by simp [dumpstr, hp, hd], ?_⟩
    have hfail := pkl_fails_on_dill env x e s hp hd
    have hdl := dill_rt env x s h hd
    cases hl1 : pklLoads env s with
    | ok v => rw [hl1] at hfail; simp [Except.isOk, Except.toBool] at hfail
    | error e1 => simp [loadstr, gzDecompress, gzCompress, unpickler, hl1, hdl]

/-- Claim C5: for every serializable value x (primitive, container, or
simple object — captured by `resolvesIn`), `loadstr (dumpstr x)` yields a
value equal to x: serializing to a compressed byte sequence and
deserializing round-trips. -/
theorem c5_dumpstr_loadstr_roundtrip (env : Env) (st : FailState) (x : PyObj)
    (h : resolvesIn env x = true) :
    ∃ g, dumpstr x = .ok g ∧ loadstr env st g none = .ok (x, st) :=
  loadstr_dumpstr env st x h

/-- Witness for C5 at a concrete container mixing a primitive, a string
and an instance of an importable class. -/
theorem c5_dumpstr_loadstr_roundtrip_witness :
    resolvesIn [("mymod", "MyCls")]
      (.plist (.cons (.prim 3) (.cons (.pstr "a") (.cons (.inst "mymod" "MyCls") .nil)))) = true
  ∧ ∃ g, dumpstr
        (.plist (.cons (.prim 3) (.cons (.pstr "a") (.cons (.inst "mymod" "MyCls") .nil)))) = .ok g
      ∧ loadstr [("mymod", "MyCls")] [] g none =
          .ok ((.plist (.cons (.prim 3) (.cons (.pstr "a") (.cons (.inst "mymod" "MyCls") .nil)))), []) :=
  ⟨by decide, c5_dumpstr_loadstr_roundtrip [("mymod", "MyCls")] []
    (.plist (.cons (.prim 3) (.cons (.pstr "a") (.cons (.inst "mymod" "MyCls") .nil)))) (by decide)⟩

/-- Claim C1 counterexample: on the empty byte string (a byte string that
is not a structurally valid pickle, modelled by `PStream.corrupt`),
`pickle.loads`, `dill.loads` and the `RobustUnpickler` all raise, and
`unpickler` with the default `die` flag propagates the exception — so the
whole load does raise on some inputs. -/
theorem c1_counterexample :
    unpickler [] [] PStream.corrupt none = .error "UnpicklingError: could not load" := rfl

/-- Claim C1 (amended): with the default `die` flag, `unpickler` attempts
pickle first; only if pickle raises is dill attempted; only if dill also
raises is the best-effort `RobustUnpickler` used, which substitutes the
`Failed` placeholder for any class that cannot be resolved, recording the
module name, class name and a non-empty error text; and the whole load
does not raise whenever the best-effort loader itself succeeds (on input
that is not a structurally valid pickle all three loaders raise and the
exception propagates). -/
theorem c1_unpickler_chain (env : Env) (st : FailState) (s : PStream) :
    (∀ v, pklLoads env s = .ok v → unpickler env st s none = .ok (v, st))
  ∧ (∀ e v, pklLoads env s = .error e → dillLoads env s = .ok v →
      unpickler env st s none = .ok (v, st))
  ∧ (∀ e e', pklLoads env s = .error e → dillLoads env s = .error e' →
      unpickler env st s none = robustLoad env st s)
  ∧ (∀ m c, resolvable env m c = false →
      robustLoad env st (.glob m c) =
        .ok (.failedInst, makefailed st m c (errRepr m c)) ∧ errRepr m c ≠ "")
  ∧ (∀ v st', robustLoad env st s = .ok (v, st') → ∃ w, unpickler env st s none = .ok w) := by
  refine ⟨?_, ?_, ?_, ?_, ?_⟩
  · intro v h
    simp [unpickler, h]
  · intro e v h1 h2
    simp [unpickler, h1, h2]
  · intro e e' h1 h2
    simp [unpickler, h1, h2]
  · intro m c h
    exact ⟨by simp [robustLoad, RobustUnpickler.find_class, h], errRepr_ne_empty m c⟩
  · intro v st' h
    cases hp : pklLoads env s with
    | ok w => exact ⟨(w, st), by simp [unpickler, hp]⟩
    | error e =>
      cases hd : dillLoads env s with
      | ok w => exact ⟨(w, st), by simp [unpickler, hp, hd]⟩
      | error e' => exact ⟨(v, st'), by simp [unpickler, hp, hd, h]⟩

/-- Witness for C1 (amended): the dill branch fires on dill-only content,
and the best-effort branch substitutes a recorded placeholder for an
unresolvable class. -/
theorem c1_unpickler_chain_witness :
    unpickler [] [] (PStream.dillOnly 5) none = .ok (.func 5, [])
  ∧ unpickler [] [] (PStream.glob "missing" "Cls") none =
      .ok (.failedInst, [⟨"missing", "Cls", errRepr "missing" "Cls"⟩]) := by
  constructor
  · exact (c1_unpickler_chain [] [] (PStream.dillOnly 5)).2.1
      "UnpicklingError: unsupported content" (.func 5) rfl rfl
  · have hchain := (c1_unpickler_chain [] [] (PStream.glob "missing" "Cls")).2.2.1
      (errRepr "missing" "Cls") (errRepr "missing" "Cls") rfl rfl
    have hrb := ((c1_unpickler_chain [] [] (PStream.glob "missing" "Cls")).2.2.2.1
      "missing" "Cls" rfl).1
    rw [hchain, hrb]
    rfl

/-- Claim C7: deserializing a payload that references a class which
cannot be resolved does not raise: it produces a `Failed` placeholder
whose diagnostic metadata is non-empty, containing the offending module
name, class name, and a non-empty error text. -/
theorem c7_missing_class_placeholder (env : Env) (st : FailState) (m c : String)
    (h : resolvable env m c = false) :
    ∃ st', unpickler env st (.glob m c) none = .ok (.failedInst, st')
      ∧ st' ≠ [] ∧ FailRec.mk m c (errRepr m c) ∈ st' ∧ errRepr m c ≠ "" := by
  refine ⟨makefailed st m c (errRepr m c), ?_, ?_, ?_, errRepr_ne_empty m c⟩
  · simp [unpickler, pklLoads, dillLoads, h, robustLoad, RobustUnpickler.find_class]
  · simp [makefailed]
  · simp [makefailed]

/-- Witness for C7 at a concrete missing class. -/
theorem c7_missing_class_placeholder_witness :
    resolvable [] "badmod" "BadCls" = false
  ∧ ∃ st', unpickler [] [] (.glob "badmod" "BadCls") none = .ok (.failedInst, st')
      ∧ st' ≠ [] ∧ FailRec.mk "badmod" "BadCls" (errRepr "badmod" "BadCls") ∈ st'
      ∧ errRepr "badmod" "BadCls" ≠ "" :=
  ⟨rfl, c7_missing_class_placeholder [] [] "badmod" "BadCls" rfl⟩

theorem kvGet_kvSet_self {κ ν : Type} [DecidableEq κ] (l : List (κ × ν)) (k : κ) (v : ν) :
    kvGet (kvSet l k v) k = some v := by
  induction l with
  | nil => simp [kvSet, kvGet]
  | cons p rest ih =>
    obtain ⟨k', v'⟩ := p
    by_cases h : k' = k
    · simp [kvSet, h, kvGet]
    · simp [kvSet, h, kvGet, ih]

theorem kvGet_eq_none {κ ν : Type} [DecidableEq κ] (l : List (κ × ν)) (k : κ)
    (h : k ∉ l.map Prod.fst) : kvGet l k = none := by
  induction l with
  | nil => rfl
  | cons p rest ih =>
    obtain ⟨k', v'⟩ := p
    simp only [List.map_cons, List.mem_cons] at h
    push_neg at h
    have hne : k' ≠ k := fun e => h.1 e.symm
    simp [kvGet, hne, ih h.2]

theorem kvGet_kvErase_self {κ ν : Type} [DecidableEq κ] (l : List (κ × ν)) (k : κ)
    (h : (l.map Prod.fst).Nodup) : kvGet (kvErase l k) k = none := by
  induction l with
  | nil => rfl
  | cons p rest ih =>
    obtain ⟨k', v'⟩ := p
    simp only [List.map_cons, List.nodup_cons] at h
    by_cases hk : k' = k
    · subst hk
      simpa [kvErase] using kvGet_eq_none rest k' h.1
    · simp [kvErase, hk, kvGet, ih h.2]

theorem save_handle_dict (ds : DataStore) : (DataStore.save ds).handle_dict = ds.handle_dict := by
  cases h : ds.db_mode <;> simp [DataStore.save, h]

theorem save_objs (ds : DataStore) : (DataStore.save ds).backend.objs = ds.backend.objs := by
  cases h : ds.db_mode <;> simp [DataStore.save, h]

theorem save_db_mode (ds : DataStore) : (DataStore.save ds).db_mode = ds.db_mode := by
  cases h : ds.db_mode <;> simp [DataStore.save, h]

theorem save_indexSlot (ds : DataStore) :
    (DataStore.save ds).backend.indexSlot = some ds.handle_dict := by
  cases h : ds.db_mode <;> simp [DataStore.save, h]

theorem add_default_spec (ds : DataStore) (obj : PyObj) (fresh fresh2 : Nat)
    (g : GzBytes) (hg : dumpstr obj = .ok g) :
    DataStore.add ds obj .noneA "obj" ".obj" "" true fresh fresh2 =
      .ok (DataStore.save { ds with
        handle_dict := kvSet ds.handle_dict (some fresh) ⟨fresh, "obj", ".obj", ""⟩
        backend := { ds.backend with
          objs := kvSet ds.backend.objs
            (modeKey ds.db_mode ⟨fresh, "obj", ".obj", ""⟩) g } },
        some fresh) := by
  cases hm : ds.db_mode <;>
    simp [DataStore.add, scUuid, StoreObjectHandle.init, hm, modeKey,
      StoreObjectHandle.redis_store, StoreObjectHandle.file_store, hg]

theorem retrieve_spec (env : Env) (st : FailState) (ds : DataStore) (u : Nat)
    (handle : StoreObjectHandle) (g : GzBytes) (v : PyObj) (r : Nat)
    (hh : kvGet ds.handle_dict (some u) = some handle)
    (hobj : kvGet ds.backend.objs (modeKey ds.db_mode handle) = some g)
    (hload : loadstr env st g none = .ok (v, st)) :
    DataStore.retrieve env st ds (.valid u) r = .ok (some (v, st)) := by
  cases hm : ds.db_mode <;> rw [hm] at hobj <;> simp only [modeKey] at hobj <;>
    simp [DataStore.retrieve, scUuid, DataStore.get_handle_by_uid, hh, hm,
      StoreObjectHandle.redis_retrieve, StoreObjectHandle.file_retrieve, hobj, hload,
      Except.map]

theorem scUuid_valid (u f : Nat) : scUuid (.valid u) f = some u := rfl

theorem update_spec (ds : DataStore) (uid : UidArg) (u : Nat)
    (handle : StoreObjectHandle) (obj2 : PyObj) (g2 : GzBytes) (r : Nat)
    (hsc : scUuid uid r = some u)
    (hh : kvGet ds.handle_dict (some u) = some handle)
    (hg2 : dumpstr obj2 = .ok g2) :
    DataStore.update ds uid obj2 r = .ok { ds with
      backend := { ds.backend with
        objs := kvSet ds.backend.objs (modeKey ds.db_mode handle) g2 } } := by
  cases hm : ds.db_mode <;>
    simp [DataStore.update, hsc, scUuid_valid, DataStore.get_handle_by_uid, hh, hm, modeKey,
      StoreObjectHandle.redis_store, StoreObjectHandle.file_store, hg2]

/-- Claim C2: for every storable object `obj` (one the serializer chain
round-trips, captured by `resolvesIn`), after `uid = add(obj)` with
default arguments, `retrieve uid` returns a value equal to `obj`; and
after `update uid obj2`, `retrieve uid` returns a value equal to `obj2`
(the stored payload is replaced). -/
theorem c2_add_retrieve_update (env : Env) (st : FailState) (ds : DataStore)
    (obj obj2 : PyObj) (fresh fresh2 r1 r2 r3 : Nat)
    (h1 : resolvesIn env obj = true) (h2 : resolvesIn env obj2 = true) :
    ∃ ds1, DataStore.add ds obj .noneA "obj" ".obj" "" true fresh fresh2
        = .ok (ds1, some fresh)
      ∧ DataStore.retrieve env st ds1 (.valid fresh) r1 = .ok (some (obj, st))
      ∧ ∃ ds2, DataStore.update ds1 (.valid fresh) obj2 r2 = .ok ds2
          ∧ DataStore.retrieve env st ds2 (.valid fresh) r3 = .ok (some (obj2, st)) := by
  obtain ⟨g, hg, hlg⟩ := loadstr_dumpstr env st obj h1
  obtain ⟨g2, hg2, hlg2⟩ := loadstr_dumpstr env st obj2 h2
  have hadd := add_default_spec ds obj fresh fresh2 g hg
  refine ⟨_, hadd, ?_, ?_⟩
  · apply retrieve_spec env st _ fresh ⟨fresh, "obj", ".obj", ""⟩ g obj r1
    · rw [save_handle_dict]
      exact kvGet_kvSet_self _ _ _
    · rw [save_objs, save_db_mode]
      exact kvGet_kvSet_self _ _ _
    · exact hlg
  · have hdict1 : kvGet (DataStore.save { ds with
        handle_dict := kvSet ds.handle_dict (some fresh) ⟨fresh, "obj", ".obj", ""⟩
        backend := { ds.backend with
          objs := kvSet ds.backend.objs
            (modeKey ds.db_mode ⟨fresh, "obj", ".obj", ""⟩) g } }).handle_dict
        (some fresh) = some ⟨fresh, "obj", ".obj", ""⟩ := by
      rw [save_handle_dict]
      exact kvGet_kvSet_self _ _ _
    have hupd := update_spec _ (.valid fresh) fresh ⟨fresh, "obj", ".obj", ""⟩ obj2 g2 r2
      rfl hdict1 hg2
    refine ⟨_, hupd, ?_⟩
    apply retrieve_spec env st _ fresh ⟨fresh, "obj", ".obj", ""⟩ g2 obj2 r3
    · exact hdict1
    · exact kvGet_kvSet_self _ _ _
    · exact hlg2

/-- Witness for C2: a fresh Redis-mode store, a primitive payload and a
primitive replacement. -/
theorem c2_add_retrieve_update_witness :
    resolvesIn [] (.prim 1) = true ∧ resolvesIn [] (.prim 2) = true
  ∧ ∃ ds1, DataStore.add ⟨[], .redis, ⟨[], none, none⟩⟩ (.prim 1) .noneA
        "obj" ".obj" "" true 7 8 = .ok (ds1, some 7)
      ∧ DataStore.retrieve [] [] ds1 (.valid 7) 0 = .ok (some (.prim 1, []))
      ∧ ∃ ds2, DataStore.update ds1 (.valid 7) (.prim 2) 0 = .ok ds2
          ∧ DataStore.retrieve [] [] ds2 (.valid 7) 0 = .ok (some (.prim 2, [])) :=
  ⟨rfl, rfl, c2_add_retrieve_update [] [] ⟨[], .redis, ⟨[], none, none⟩⟩
    (.prim 1) (.prim 2) 7 8 0 0 0 rfl rfl⟩

theorem uidMatches_eq (l : List (Option Nat × StoreObjectHandle)) (tp il : String) :
    uidMatches l tp il =
      (l.filter (fun e => decide (e.2.typePrefix = tp ∧ e.2.instanceLabel = il))).map
        (fun e => e.2.uid) := by
  induction l with
  | nil => rfl
  | cons e rest ih =>
    obtain ⟨k, h⟩ := e
    by_cases hp : (h.typePrefix = tp ∧ h.instanceLabel = il)
    · simp [uidMatches, hp, List.filter_cons, ih]
    · simp [uidMatches, hp, List.filter_cons, ih]

theorem find?_head?_filter {α : Type} (l : List α) (p : α → Bool) :
    l.find? p = (l.filter p).head? := by
  induction l with
  | nil => rfl
  | cons a t ih =>
    cases hp : p a with
    | true => rw [List.find?_cons_of_pos _ hp, List.filter_cons_of_pos hp, List.head?_cons]
    | false =>
      rw [List.find?_cons_of_neg _ (by simp [hp]), List.filter_cons_of_neg (by simp [hp]), ih]

theorem getUid_fst (ds : DataStore) (tp il : String) :
    (DataStore.get_uid ds tp il).1 = (uidMatches ds.handle_dict tp il).head? := by
  rcases h : uidMatches ds.handle_dict tp il with _ | ⟨a, _ | ⟨b, t⟩⟩ <;>
    simp [DataStore.get_uid, h]

theorem getUid_snd (ds : DataStore) (tp il : String) :
    (DataStore.get_uid ds tp il).2 =
      if 2 ≤ (uidMatches ds.handle_dict tp il).length then [getUidWarning] else [] := by
  rcases h : uidMatches ds.handle_dict tp il with _ | ⟨a, _ | ⟨b, t⟩⟩
  · simp [DataStore.get_uid, h]
  · simp [DataStore.get_uid, h]
  · simp only [DataStore.get_uid, h, List.length_cons]
    rw [if_pos (by omega)]

/-- Claim C3: `get_uid tp il` returns `None` exactly when no handle has
both the given type prefix and instance label; otherwise it returns the
uid of the first matching handle in the index's insertion order (hence
the sole match when exactly one matches), and it prints the warning
exactly when more than one handle matches. -/
theorem c3_get_uid_lookup (ds : DataStore) (tp il : String) :
    (DataStore.get_uid ds tp il).1 =
      (ds.handle_dict.find? (fun e =>
        decide (e.2.typePrefix = tp ∧ e.2.instanceLabel = il))).map (fun e => e.2.uid)
  ∧ ((DataStore.get_uid ds tp il).1 = none ↔
      ∀ e ∈ ds.handle_dict, ¬(e.2.typePrefix = tp ∧ e.2.instanceLabel = il))
  ∧ (DataStore.get_uid ds tp il).2 =
      (if 2 ≤ ds.handle_dict.countP (fun e =>
          decide (e.2.typePrefix = tp ∧ e.2.instanceLabel = il))
        then [getUidWarning] else []) := by
  refine ⟨?_, ?_, ?_⟩
  · rw [getUid_fst, uidMatches_eq, find?_head?_filter, List.head?_map]
  · rw [getUid_fst, uidMatches_eq, List.head?_map]
    simp [Option.map_eq_none', List.head?_eq_none_iff, List.filter_eq_nil_iff]
  · rw [getUid_snd, uidMatches_eq, List.length_map, List.countP_eq_length_filter]

theorem mem_kvSet {κ ν : Type} [DecidableEq κ] (l : List (κ × ν)) (k : κ) (v : ν) :
    ∀ e ∈ kvSet l k v, e = (k, v) ∨ e ∈ l := by
  induction l with
  | nil => intro e he; simp [kvSet] at he; left; exact he
  | cons p rest ih =>
    obtain ⟨k', v'⟩ := p
    intro e he
    by_cases h : k' = k
    · simp only [kvSet, if_pos h, List.mem_cons] at he
      rcases he with he | he
      · left; exact he
      · right; simp [he]
    · simp only [kvSet, if_neg h, List.mem_cons] at he
      rcases he with he | he
      · right; simp [he]
      · rcases ih e he with h2 | h2
        · left; exact h2
        · right; simp [h2]

theorem mem_keys_kvSet {κ ν : Type} [DecidableEq κ] (l : List (κ × ν)) (k : κ) (v : ν)
    (a : κ) (ha : a ∈ (kvSet l k v).map Prod.fst) : a = k ∨ a ∈ l.map Prod.fst := by
  simp only [List.mem_map] at ha ⊢
  obtain ⟨e, he, rfl⟩ := ha
  rcases mem_kvSet l k v e he with h | h
  · left; rw [h]
  · right; exact ⟨e, h, rfl⟩

theorem kvSet_keys_nodup {κ ν : Type} [DecidableEq κ] (l : List (κ × ν)) (k : κ) (v : ν)
    (h : (l.map Prod.fst).Nodup) : ((kvSet l k v).map Prod.fst).Nodup := by
  induction l with
  | nil => simp [kvSet]
  | cons p rest ih =>
    obtain ⟨k', v'⟩ := p
    simp only [List.map_cons, List.nodup_cons] at h
    by_cases hk : k' = k
    · have hs : kvSet ((k', v') :: rest) k v = (k, v) :: rest := by simp [kvSet, hk]
      rw [hs]
      simp only [List.map_cons, List.nodup_cons]
      exact ⟨hk ▸ h.1, h.2⟩
    · simp only [kvSet, if_neg hk, List.map_cons, List.nodup_cons]
      refine ⟨?_, ih h.2⟩
      intro hmem
      rcases mem_keys_kvSet rest k v k' hmem with h2 | h2
      · exact hk h2
      · exact h.1 h2

theorem kvErase_sublist {κ ν : Type} [DecidableEq κ] (l : List (κ × ν)) (k : κ) :
    List.Sublist (kvErase l k) l := by
  induction l with
  | nil => simp [kvErase]
  | cons p rest ih =>
    obtain ⟨k', v'⟩ := p
    by_cases h : k' = k
    · simp only [kvErase, if_pos h]
      exact List.sublist_cons_self _ _
    · simp only [kvErase, if_neg h]
      exact ih.cons₂ _

theorem mem_kvErase {κ ν : Type} [DecidableEq κ] (l : List (κ × ν)) (k : κ) :
    ∀ e ∈ kvErase l k, e ∈ l :=
  fun _ he => (kvErase_sublist l k).mem he

theorem kvErase_keys_nodup {κ ν : Type} [DecidableEq κ] (l : List (κ × ν)) (k : κ)
    (h : (l.map Prod.fst).Nodup) : ((kvErase l k).map Prod.fst).Nodup :=
  h.sublist ((kvErase_sublist l k).map Prod.fst)

theorem delete_found_spec (ds : DataStore) (u : Nat) (h0 : StoreObjectHandle)
    (r : Nat) (b : Bool) (hmem : kvGet ds.handle_dict (some u) = some h0) :
    DataStore.delete ds (.valid u) b r =
      (if b then DataStore.save { ds with
          handle_dict := kvErase ds.handle_dict (some u)
          backend := { ds.backend with
            objs := kvErase ds.backend.objs (modeKey ds.db_mode h0) } }
        else { ds with
          handle_dict := kvErase ds.handle_dict (some u)
          backend := { ds.backend with
            objs := kvErase ds.backend.objs (modeKey ds.db_mode h0) } }) := by
  cases hm : ds.db_mode <;>
    simp [DataStore.delete, scUuid, DataStore.get_handle_by_uid, hmem, hm, modeKey,
      StoreObjectHandle.redis_delete, StoreObjectHandle.file_delete]

theorem update_cases (ds : DataStore) (uid : UidArg) (obj : PyObj) (r : Nat)
    (ds2 : DataStore) (h : DataStore.update ds uid obj r = .ok ds2) :
    ds2.handle_dict = ds.handle_dict ∧ ds2.backend.indexSlot = ds.backend.indexSlot
      ∧ ds2.db_mode = ds.db_mode := by
  cases hsc : scUuid uid r with
  | none =>
    have he : DataStore.update ds uid obj r = .ok ds := by
      simp [DataStore.update, hsc]
    rw [he] at h
    simp only [Except.ok.injEq] at h
    subst h
    exact ⟨rfl, rfl, rfl⟩
  | some u =>
    cases hg : kvGet ds.handle_dict (some u) with
    | none =>
      have he : DataStore.update ds uid obj r = .ok ds := by
        simp [DataStore.update, hsc, DataStore.get_handle_by_uid, scUuid_valid, hg]
      rw [he] at h
      simp only [Except.ok.injEq] at h
      subst h
      exact ⟨rfl, rfl, rfl⟩
    | some h0 =>
      cases hdmp : dumpstr obj with
      | error e =>
        have he : DataStore.update ds uid obj r = .error e := by
          cases hm : ds.db_mode <;>
            simp [DataStore.update, hsc, DataStore.get_handle_by_uid, scUuid_valid, hg, hm,
              StoreObjectHandle.redis_store, StoreObjectHandle.file_store, hdmp]
        rw [he] at h
        exact absurd h (by simp)
      | ok g =>
        have he := update_spec ds uid u h0 obj g r hsc hg hdmp
        rw [he] at h
        simp only [Except.ok.injEq] at h
        subst h
        exact ⟨rfl, rfl, rfl⟩

/-- Claim C8: calling `load` when the backend holds no previously saved
index (absent Redis index key, resp. missing index file) prints the error
message and returns `None` without raising, leaving the in-memory index —
indeed the whole state — unchanged. -/
theorem c8_load_unsaved_backend (ds : DataStore)
    (h : ds.backend.indexSlot = none) :
    DataStore.load ds = .ok (ds, [loadErrMsg]) := by
  cases hm : ds.db_mode <;> simp [DataStore.load, hm, h]

/-- Witness for C8: a freshly constructed Redis-mode store whose backend
was never saved to. -/
theorem c8_load_unsaved_backend_witness :
    (⟨[], .redis, ⟨[], none, none⟩⟩ : DataStore).backend.indexSlot = none
  ∧ DataStore.load ⟨[], .redis, ⟨[], none, none⟩⟩ =
      .ok (⟨[], .redis, ⟨[], none, none⟩⟩, [loadErrMsg]) :=
  ⟨rfl, c8_load_unsaved_backend ⟨[], .redis, ⟨[], none, none⟩⟩ rfl⟩

/-- Claim C9: for every uid that is not a key of the in-memory index —
a convertible uid absent from the index, or one whose conversion to a
UUID fails — `update` and `delete` are silent no-ops: each returns with
the state (handle index, payload store and persisted index alike)
unchanged, so no save of the index is triggered; and
`get_handle_by_uid` of an unconvertible uid is `None`. -/
theorem c9_update_delete_missing_noop (ds : DataStore) (obj : PyObj)
    (u r1 r2 r3 r4 r5 : Nat)
    (h : kvGet ds.handle_dict (some u) = none) :
    DataStore.update ds (.valid u) obj r1 = .ok ds
  ∧ DataStore.delete ds (.valid u) true r2 = ds
  ∧ DataStore.update ds .invalid obj r3 = .ok ds
  ∧ DataStore.delete ds .invalid true r4 = ds
  ∧ DataStore.get_handle_by_uid ds .invalid r5 = none := by
  refine ⟨?_, ?_, ?_, ?_, ?_⟩
  · simp [DataStore.update, scUuid, DataStore.get_handle_by_uid, h]
  · simp [DataStore.delete, scUuid, DataStore.get_handle_by_uid, h]
  · simp [DataStore.update, scUuid]
  · simp [DataStore.delete, scUuid]
  · simp [DataStore.get_handle_by_uid, scUuid]

/-- Witness for C9: a one-entry store, an absent uid and an
unconvertible uid. -/
theorem c9_update_delete_missing_noop_witness :
    kvGet (⟨[(some 1, ⟨1, "obj", ".obj", ""⟩)], .redis, ⟨[], none, none⟩⟩
        : DataStore).handle_dict (some 2) = none
  ∧ (DataStore.update ⟨[(some 1, ⟨1, "obj", ".obj", ""⟩)], .redis, ⟨[], none, none⟩⟩
        (.valid 2) (.prim 5) 0
      = .ok ⟨[(some 1, ⟨1, "obj", ".obj", ""⟩)], .redis, ⟨[], none, none⟩⟩
  ∧ DataStore.delete ⟨[(some 1, ⟨1, "obj", ".obj", ""⟩)], .redis, ⟨[], none, none⟩⟩
        (.valid 2) true 0
      = ⟨[(some 1, ⟨1, "obj", ".obj", ""⟩)], .redis, ⟨[], none, none⟩⟩
  ∧ DataStore.update ⟨[(some 1, ⟨1, "obj", ".obj", ""⟩)], .redis, ⟨[], none, none⟩⟩
        .invalid (.prim 5) 0
      = .ok ⟨[(some 1, ⟨1, "obj", ".obj", ""⟩)], .redis, ⟨[], none, none⟩⟩
  ∧ DataStore.delete ⟨[(some 1, ⟨1, "obj", ".obj", ""⟩)], .redis, ⟨[], none, none⟩⟩
        .invalid true 0
      = ⟨[(some 1, ⟨1, "obj", ".obj", ""⟩)], .redis, ⟨[], none, none⟩⟩
  ∧ DataStore.get_handle_by_uid
      ⟨[(some 1, ⟨1, "obj", ".obj", ""⟩)], .redis, ⟨[], none, none⟩⟩ .invalid 0 = none) :=
  ⟨rfl, c9_update_delete_missing_noop
    ⟨[(some 1, ⟨1, "obj", ".obj", ""⟩)], .redis, ⟨[], none, none⟩⟩ (.prim 5) 2 0 0 0 0 0 rfl⟩

theorem deleteAll_loop_empties :
    ∀ (l : List (Option Nat × StoreObjectHandle)) (ds : DataStore),
      ds.handle_dict = l → (∀ e ∈ l, e.1.isSome = true) →
      ((l.map Prod.fst).foldl (fun d k => d.delete (keyToArg k) false 0) ds).handle_dict
        = [] := by
  intro l
  induction l with
  | nil =>
    intro ds hd _
    simpa using hd
  | cons p rest ih =>
    intro ds hd hkeys
    obtain ⟨k, h0⟩ := p
    cases k with
    | none =>
      have hk := hkeys (none, h0) (by simp)
      simp at hk
    | some u =>
      simp only [List.map_cons, List.foldl_cons]
      have hget : kvGet ds.handle_dict (some u) = some h0 := by
        rw [hd]
        simp [kvGet]
      rw [show keyToArg (some u) = UidArg.valid u from rfl,
        delete_found_spec ds u h0 0 false hget, if_neg (by simp)]
      apply ih
      · show kvErase ds.handle_dict (some u) = rest
        rw [hd]
        simp [kvErase]
      · intro e he
        exact hkeys e (by simp [he])

/-- Claim C6: for every uid present in the index of a well-formed store
(unique keys, no `None` key — the shape every store reachable through
convertible uids has), after `delete uid` a subsequent `retrieve uid`
returns the not-found result `None`; and after `delete_all` the
in-memory handle index is empty. -/
theorem c6_delete_retrieve_delete_all (env : Env) (st : FailState) (ds : DataStore)
    (u : Nat) (h0 : StoreObjectHandle) (r1 r2 : Nat)
    (hmem : kvGet ds.handle_dict (some u) = some h0)
    (hnodup : (ds.handle_dict.map Prod.fst).Nodup)
    (hkeys : ∀ e ∈ ds.handle_dict, e.1.isSome = true) :
    DataStore.retrieve env st (DataStore.delete ds (.valid u) true r1) (.valid u) r2
      = .ok none
  ∧ (DataStore.delete_all ds).handle_dict = [] := by
  constructor
  · rw [delete_found_spec ds u h0 r1 true hmem, if_pos rfl]
    simp [DataStore.retrieve, scUuid, DataStore.get_handle_by_uid, save_handle_dict,
      kvGet_kvErase_self ds.handle_dict (some u) hnodup]
  · simp only [DataStore.delete_all]
    rw [save_handle_dict]
    exact deleteAll_loop_empties ds.handle_dict ds rfl hkeys

/-- Witness for C6: a two-entry Redis-mode store with stored payloads. -/
theorem c6_delete_retrieve_delete_all_witness :
    kvGet (⟨[(some 1, ⟨1, "obj", ".obj", ""⟩), (some 2, ⟨2, "p", ".p", "x"⟩)], .redis,
        ⟨[], none, none⟩⟩ : DataStore).handle_dict (some 1) = some ⟨1, "obj", ".obj", ""⟩
  ∧ (DataStore.retrieve [] [] (DataStore.delete
        ⟨[(some 1, ⟨1, "obj", ".obj", ""⟩), (some 2, ⟨2, "p", ".p", "x"⟩)], .redis,
          ⟨[], none, none⟩⟩ (.valid 1) true 0) (.valid 1) 0 = .ok none
  ∧ (DataStore.delete_all ⟨[(some 1, ⟨1, "obj", ".obj", ""⟩), (some 2, ⟨2, "p", ".p", "x"⟩)],
        .redis, ⟨[], none, none⟩⟩).handle_dict = []) :=
  ⟨rfl, c6_delete_retrieve_delete_all [] []
    ⟨[(some 1, ⟨1, "obj", ".obj", ""⟩), (some 2, ⟨2, "p", ".p", "x"⟩)], .redis,
      ⟨[], none, none⟩⟩ 1 ⟨1, "obj", ".obj", ""⟩ 0 0 rfl (by decide) (by decide)⟩

theorem add_error (ds : DataStore) (obj : PyObj) (uid : UidArg) (tl fs il : String)
    (b : Bool) (fr fr2 : Nat) (e : String) (hdmp : dumpstr obj = .error e) :
    DataStore.add ds obj uid tl fs il b fr fr2 = .error e := by
  cases hm : ds.db_mode <;>
    simp [DataStore.add, hm, StoreObjectHandle.redis_store,
      StoreObjectHandle.file_store, hdmp]

theorem add_spec_general (ds : DataStore) (obj : PyObj) (uid : UidArg)
    (tl fs il : String) (b : Bool) (fr fr2 : Nat) (g : GzBytes)
    (hdmp : dumpstr obj = .ok g) :
    DataStore.add ds obj uid tl fs il b fr fr2 =
      .ok (if b then DataStore.save (addMid ds uid tl fs il fr fr2 g)
            else addMid ds uid tl fs il fr fr2 g, scUuid uid fr) := by
  cases hm : ds.db_mode <;>
    simp [DataStore.add, addMid, hm, modeKey, StoreObjectHandle.redis_store,
      StoreObjectHandle.file_store, hdmp]

theorem add_ok_indexSlot (ds : DataStore) (obj : PyObj) (uid : UidArg)
    (tl fs il : String) (fr fr2 : Nat) (ds1 : DataStore) (u : Option Nat)
    (hadd : DataStore.add ds obj uid tl fs il true fr fr2 = .ok (ds1, u)) :
    ds1.backend.indexSlot = some ds1.handle_dict := by
  cases hdmp : dumpstr obj with
  | error e =>
    rw [add_error ds obj uid tl fs il true fr fr2 e hdmp] at hadd
    exact absurd hadd (by simp)
  | ok g =>
    rw [add_spec_general ds obj uid tl fs il true fr fr2 g hdmp] at hadd
    simp only [if_pos, Except.ok.injEq, Prod.mk.injEq] at hadd
    obtain ⟨h1, _⟩ := hadd
    rw [← h1, save_indexSlot, save_handle_dict]

/-- Claim C4 counterexample: `update` on a present uid succeeds but does
not call `save`, so from a state whose index was never persisted the
in-memory index and the persisted index still differ after `update`
completes. -/
theorem c4_counterexample :
    ∃ ds2, DataStore.update ⟨[(some 1, ⟨1, "obj", ".obj", ""⟩)], .redis, ⟨[], none, none⟩⟩
        (.valid 1) (.prim 2) 0 = .ok ds2
      ∧ ds2.backend.indexSlot ≠ some ds2.handle_dict := by
  refine ⟨⟨[(some 1, ⟨1, "obj", ".obj", ""⟩)], .redis,
    ⟨[(⟨"obj", 1, ""⟩, ⟨.lit 2⟩)], none, none⟩⟩, by rfl, by simp⟩

/-- Claim C4 (amended): `add` (with its default `save_handle_changes`)
and `delete_all` always end by re-persisting the entire in-memory handle
index via `save`, and `delete` does so whenever it actually removes a
handle, so afterwards the persisted index equals the in-memory index;
`update`, however, never calls `save` — it leaves both the in-memory
index and the persisted index exactly as they were, so it preserves that
equality where it already held but does not establish it. -/
theorem c4_mutators_persist_index (ds : DataStore) :
    (∀ obj uid tl fs il fr fr2 ds1 u,
      DataStore.add ds obj uid tl fs il true fr fr2 = .ok (ds1, u) →
      ds1.backend.indexSlot = some ds1.handle_dict)
  ∧ (DataStore.delete_all ds).backend.indexSlot
      = some (DataStore.delete_all ds).handle_dict
  ∧ (∀ u h0 r, kvGet ds.handle_dict (some u) = some h0 →
      (DataStore.delete ds (.valid u) true r).backend.indexSlot
        = some (DataStore.delete ds (.valid u) true r).handle_dict)
  ∧ (∀ uid obj2 r ds2, DataStore.update ds uid obj2 r = .ok ds2 →
      ds2.handle_dict = ds.handle_dict ∧ ds2.backend.indexSlot = ds.backend.indexSlot) := by
  refine ⟨?_, ?_, ?_, ?_⟩
  · intro obj uid tl fs il fr fr2 ds1 u hadd
    exact add_ok_indexSlot ds obj uid tl fs il fr fr2 ds1 u hadd
  · simp only [DataStore.delete_all]
    rw [save_indexSlot, save_handle_dict]
  · intro u h0 r hmem
    rw [delete_found_spec ds u h0 r true hmem, if_pos rfl, save_indexSlot, save_handle_dict]
  · intro uid obj2 r ds2 hupd
    exact ⟨(update_cases ds uid obj2 r ds2 hupd).1, (update_cases ds uid obj2 r ds2 hupd).2.1⟩

/-- Witness for C4 (amended), at a concrete one-entry store: after
`delete_all` the persisted index equals the (empty) in-memory index. -/
theorem c4_mutators_persist_index_witness :
    (DataStore.delete_all (⟨[(some 1, ⟨1, "obj", ".obj", ""⟩)], .redis, ⟨[], none, none⟩⟩
        : DataStore)).backend.indexSlot
      = some (DataStore.delete_all (⟨[(some 1, ⟨1, "obj", ".obj", ""⟩)], .redis,
        ⟨[], none, none⟩⟩ : DataStore)).handle_dict :=
  (c4_mutators_persist_index
    ⟨[(some 1, ⟨1, "obj", ".obj", ""⟩)], .redis, ⟨[], none, none⟩⟩).2.1

theorem delete_handle_dict_cases (ds : DataStore) (uid : UidArg) (b : Bool) (r : Nat) :
    (DataStore.delete ds uid b r).handle_dict = ds.handle_dict
  ∨ ∃ u, (DataStore.delete ds uid b r).handle_dict = kvErase ds.handle_dict (some u) := by
  cases hsc : scUuid uid r with
  | none => left; simp [DataStore.delete, hsc]
  | some u =>
    cases hg : kvGet ds.handle_dict (some u) with
    | none =>
      left
      simp [DataStore.delete, hsc, DataStore.get_handle_by_uid, scUuid_valid, hg]
    | some h0 =>
      right
      refine ⟨u, ?_⟩
      have heq : DataStore.delete ds uid b r =
          (if b then DataStore.save { ds with
              handle_dict := kvErase ds.handle_dict (some u)
              backend := { ds.backend with
                objs := kvErase ds.backend.objs (modeKey ds.db_mode h0) } }
            else { ds with
              handle_dict := kvErase ds.handle_dict (some u)
              backend := { ds.backend with
                objs := kvErase ds.backend.objs (modeKey ds.db_mode h0) } }) := by
        cases hm : ds.db_mode <;>
          simp [DataStore.delete, hsc, DataStore.get_handle_by_uid, scUuid_valid, hg, hm,
            modeKey, StoreObjectHandle.redis_delete, StoreObjectHandle.file_delete]
      rw [heq]
      cases b
      · simp
      · simp [save_handle_dict]

theorem inv_delete (ds : DataStore) (uid : UidArg) (b : Bool) (r : Nat)
    (h : IndexInv ds.handle_dict) : IndexInv (DataStore.delete ds uid b r).handle_dict := by
  rcases delete_handle_dict_cases ds uid b r with hcase | ⟨u, hcase⟩
  · rw [hcase]; exact h
  · rw [hcase]
    exact ⟨fun e he => h.1 e (mem_kvErase _ _ e he), kvErase_keys_nodup _ _ h.2⟩

theorem inv_foldl_delete (ks : List (Option Nat)) :
    ∀ ds : DataStore, IndexInv ds.handle_dict →
    IndexInv ((ks.foldl (fun d k => d.delete (keyToArg k) false 0) ds).handle_dict) := by
  induction ks with
  | nil => intro ds h; simpa using h
  | cons k rest ih =>
    intro ds h
    simp only [List.foldl_cons]
    exact ih _ (inv_delete _ _ _ _ h)

theorem inv_add (ds : DataStore) (obj : PyObj) (uid : UidArg) (tl fs il : String)
    (b : Bool) (fr fr2 : Nat) (ds1 : DataStore) (u : Option Nat)
    (hne : uid ≠ UidArg.invalid) (h : IndexInv ds.handle_dict)
    (hadd : DataStore.add ds obj uid tl fs il b fr fr2 = .ok (ds1, u)) :
    IndexInv ds1.handle_dict := by
  cases hdmp : dumpstr obj with
  | error e =>
    rw [add_error ds obj uid tl fs il b fr fr2 e hdmp] at hadd
    exact absurd hadd (by simp)
  | ok g =>
    rw [add_spec_general ds obj uid tl fs il b fr fr2 g hdmp] at hadd
    simp only [Except.ok.injEq, Prod.mk.injEq] at hadd
    obtain ⟨h1, _⟩ := hadd
    obtain ⟨w, hw⟩ : ∃ w, scUuid uid fr = some w := by
      cases uid with
      | noneA => exact ⟨fr, rfl⟩
      | valid v => exact ⟨v, rfl⟩
      | invalid => exact absurd rfl hne
    have hinv2 : IndexInv (addMid ds uid tl fs il fr fr2 g).handle_dict := by
      constructor
      · intro e he
        rcases mem_kvSet _ _ _ e he with he2 | he2
        · rw [he2]
          simp [StoreObjectHandle.init, hw]
        · exact h.1 e he2
      · exact kvSet_keys_nodup _ _ _ h.2
    rw [← h1]
    cases b
    · simpa using hinv2
    · rw [if_pos rfl, save_handle_dict]
      exact hinv2

/-- Claim C10 counterexample: from a store satisfying the key-equals-uid
invariant, `add` with an unconvertible uid inserts the handle under the
dict key `None` while `StoreObjectHandle.__init__` regenerates a fresh
uid for the handle itself, so the new entry's key differs from its
handle's uid and the invariant is broken. -/
theorem c10_counterexample :
    IndexInv (⟨[], .redis, ⟨[], none, none⟩⟩ : DataStore).handle_dict
  ∧ ∃ ds1 u, DataStore.add ⟨[], .redis, ⟨[], none, none⟩⟩ (.prim 0) .invalid
      "obj" ".obj" "" true 7 9 = .ok (ds1, u) ∧ ¬ IndexInv ds1.handle_dict := by
  refine ⟨⟨by simp, by simp⟩, ⟨⟨[(none, ⟨9, "obj", ".obj", ""⟩)], .redis,
    ⟨[(⟨"obj", 9, ""⟩, ⟨.lit 0⟩)], some [(none, ⟨9, "obj", ".obj", ""⟩)], some .redis⟩⟩,
    none, by rfl, ?_⟩⟩
  intro hinv
  have := hinv.1 (none, ⟨9, "obj", ".obj", ""⟩) (by simp)
  simp at this

/-- Claim C10 (amended): every DataStore operation invoked with a uid
argument that is absent or convertible preserves the invariant that each
entry of the in-memory handle index maps a UID key to a handle whose uid
equals that key, with index keys unique — in particular `add` with a uid
already present replaces the existing handle in place rather than
creating a second entry; `add` with an unconvertible uid, however,
inserts under the key `None` a handle carrying a freshly generated uid,
breaking the invariant. -/
theorem c10_index_invariant (ds : DataStore) (h : IndexInv ds.handle_dict) :
    (∀ obj uid tl fs il b fr fr2 ds1 u, uid ≠ UidArg.invalid →
      DataStore.add ds obj uid tl fs il b fr fr2 = .ok (ds1, u) →
      IndexInv ds1.handle_dict)
  ∧ (∀ uid obj r ds2, DataStore.update ds uid obj r = .ok ds2 →
      IndexInv ds2.handle_dict)
  ∧ (∀ uid b r, IndexInv (DataStore.delete ds uid b r).handle_dict)
  ∧ IndexInv (DataStore.delete_all ds).handle_dict
  ∧ IndexInv (DataStore.save ds).handle_dict := by
  refine ⟨?_, ?_, ?_, ?_, ?_⟩
  · intro obj uid tl fs il b fr fr2 ds1 u hne hadd
    exact inv_add ds obj uid tl fs il b fr fr2 ds1 u hne h hadd
  · intro uid obj r ds2 hupd
    rw [(update_cases ds uid obj r ds2 hupd).1]
    exact h
  · intro uid b r
    exact inv_delete ds uid b r h
  · simp only [DataStore.delete_all]
    rw [save_handle_dict]
    exact inv_foldl_delete _ ds h
  · rw [save_handle_dict]
    exact h

/-- Witness for C10 (amended) at a concrete one-entry store. -/
theorem c10_index_invariant_witness :
    IndexInv (⟨[(some 1, ⟨1, "obj", ".obj", ""⟩)], .redis, ⟨[], none, none⟩⟩
        : DataStore).handle_dict
  ∧ IndexInv (DataStore.delete_all
      ⟨[(some 1, ⟨1, "obj", ".obj", ""⟩)], .redis, ⟨[], none, none⟩⟩).handle_dict :=
  ⟨by decide, (c10_index_invariant
    ⟨[(some 1, ⟨1, "obj", ".obj", ""⟩)], .redis, ⟨[], none, none⟩⟩ (by decide)).2.2.2.1⟩

/-- Witness for C3 at a concrete store with two handles sharing a type
prefix and instance label: the first match is returned with the
warning. -/
theorem c3_get_uid_lookup_witness :
    (DataStore.get_uid ⟨[(some 1, ⟨1, "obj", ".obj", "L"⟩), (some 2, ⟨2, "obj", ".obj", "L"⟩)],
        .redis, ⟨[], none, none⟩⟩ "obj" "L").1 = some 1
  ∧ (DataStore.get_uid ⟨[(some 1, ⟨1, "obj", ".obj", "L"⟩), (some 2, ⟨2, "obj", ".obj", "L"⟩)],
        .redis, ⟨[], none, none⟩⟩ "obj" "L").2 = [getUidWarning] := by
  have h := c3_get_uid_lookup ⟨[(some 1, ⟨1, "obj", ".obj", "L"⟩),
    (some 2, ⟨2, "obj", ".obj", "L"⟩)], .redis, ⟨[], none, none⟩⟩ "obj" "L"
  refine ⟨?_, ?_⟩
  · rw [h.1]
    decide
  · rw [h.2.2]
    decide
